import Mathlib

/-!
Verification of the meeting-minutes frontend core, shallowly embedded from
the TypeScript hooks: the checkpoint recovery scan and recovery commit
(`useTranscriptRecovery`), paginated transcript merging
(`usePaginatedTranscripts`), summary generation state handling
(`useSummaryGeneration`), and the summary poll lifecycle
(`SidebarProvider.startSummaryPolling`).

Timestamps are epoch milliseconds modelled as `Nat`; audio start times are
modelled as `Nat` keys standing for the numeric seconds values (only their
ordering matters here). A thrown `invoke` call is modelled as `Except.error`.
-/

namespace MeetingMinutes

/-! ## Checkpoint recovery scan (`checkForRecoverableTranscripts`) -/

/-- A checkpoint session stored in IndexedDB as surfaced by
`indexedDBService.getAllMeetings`: identity, last-update epoch milliseconds,
and an optional on-disk folder path holding audio chunk checkpoints. -/
structure CheckpointMeeting where
  meetingId : String
  lastUpdated : Nat
  folderPath : Option String
deriving DecidableEq, Repr

/-- The sessionStorage flags read at the start of the scan. `none` models a
missing key. The scan reads these before its stale-flag cleanup, so the values
seen by the filter are the raw stored ones. -/
structure SessionFlags where
  justSavedMeetingId : Option String
  justSavedTimestamp : Option Nat
  justStoppedKey : Option String
  justStoppedTimestamp : Option Nat
deriving DecidableEq, Repr

/-- JavaScript truthiness of a string read from sessionStorage: a missing key
gives null (falsy) and the empty string is falsy. -/
def truthyStr : Option String → Bool
  | none => false
  | some s => !s.isEmpty

/-- Retention ceiling of the scan: 7 days in milliseconds. -/
def retentionWindowMs : Nat := 7 * 24 * 60 * 60 * 1000

/-- Minimum age of the scan: 15 seconds in milliseconds. -/
def minAgeMs : Nat := 15 * 1000

/-- Grace window after a stop: 2 minutes in milliseconds. -/
def stopGraceWindowMs : Nat := 2 * 60 * 1000

/-- Whether the scan considers a stop to be recent: a just-stopped timestamp
exists and lies within the two-minute grace window of `now`. -/
def recentStopWindow (now : Nat) (flags : SessionFlags) : Bool :=
  match flags.justStoppedTimestamp with
  | some t => now - t < stopGraceWindowMs
  | none => false

/-- The filter predicate of `checkForRecoverableTranscripts`: skip the
just-saved meeting, skip meetings younger than the grace window while a stop
is in progress, and otherwise keep exactly the meetings strictly inside the
retention window and strictly older than the minimum age. -/
def keepMeeting (now : Nat) (flags : SessionFlags) (m : CheckpointMeeting) : Bool :=
  if truthyStr flags.justSavedMeetingId && (flags.justSavedMeetingId == some m.meetingId) then
    false
  else if recentStopWindow now flags && truthyStr flags.justStoppedKey
      && decide (now - m.lastUpdated < stopGraceWindowMs) then
    false
  else
    decide (now - retentionWindowMs < m.lastUpdated) && decide (m.lastUpdated < now - minAgeMs)

/-- The recent-meetings stage of the scan: `meetings.filter(...)`. -/
def recoverableCandidates (now : Nat) (flags : SessionFlags)
    (meetings : List CheckpointMeeting) : List CheckpointMeeting :=
  meetings.filter (keepMeeting now flags)

/-- Per-candidate audio verification: a meeting with a folder path keeps it
only when `has_audio_checkpoints` answers true; a false answer or a thrown
check clears the folder path (shown as having no audio); a meeting without a
folder path passes through unchanged. -/
def withAudioStatus (check : String → Except Unit Bool) (m : CheckpointMeeting) :
    CheckpointMeeting :=
  match m.folderPath with
  | some fp =>
    match check fp with
    | .ok true => m
    | .ok false => { m with folderPath := none }
    | .error _ => { m with folderPath := none }
  | none => m

/-- `checkForRecoverableTranscripts`: filter the stored sessions by the
retention, minimum-age and marker rules, then verify audio-checkpoint presence
for every candidate. -/
def checkForRecoverableTranscripts (now : Nat) (flags : SessionFlags)
    (check : String → Except Unit Bool) (meetings : List CheckpointMeeting) :
    List CheckpointMeeting :=
  (recoverableCandidates now flags meetings).map (withAudioStatus check)

/-- Session flags with no markers set at all. -/
def noFlags : SessionFlags :=
  { justSavedMeetingId := none, justSavedTimestamp := none
    justStoppedKey := none, justStoppedTimestamp := none }

/-! ## Paginated transcript merging (`usePaginatedTranscripts`) -/

/-- A transcript row as returned by `api_get_meeting_transcripts`.
`audio_start_time` is optional because older rows lack it. -/
structure Transcript where
  id : String
  text : String
  audio_start_time : Option Nat
deriving DecidableEq, Repr

/-- Sort key of the append path: `audio_start_time ?? 0`. -/
def startKey (t : Transcript) : Nat := t.audio_start_time.getD 0

/-- The comparator relation of the `sort` call in `loadTranscriptsAtOffset`. -/
def byStart (a b : Transcript) : Prop := startKey a ≤ startKey b

instance : DecidableRel byStart := fun a b => Nat.decLe (startKey a) (startKey b)

instance : IsTotal Transcript byStart := ⟨fun a b => Nat.le_total (startKey a) (startKey b)⟩

instance : IsTrans Transcript byStart := ⟨fun _ _ _ h h2 => Nat.le_trans h h2⟩

/-- The `append` branch of `loadTranscriptsAtOffset`: drop incoming rows whose
id is already present, append the remainder, and sort the whole list by
`audio_start_time ?? 0` (the stable JavaScript sort is modelled by a stable
insertion sort). -/
def appendPage (prev newPage : List Transcript) : List Transcript :=
  let existingIds := prev.map (fun t => t.id)
  let uniqueNew := newPage.filter (fun t => !(existingIds.contains t.id))
  List.insertionSort byStart (prev ++ uniqueNew)

/-- A whole sequence of `loadMore` reads folded into the transcript list. -/
def loadSequence (init : List Transcript) (pages : List (List Transcript)) :
    List Transcript :=
  pages.foldl appendPage init

/-- A concrete page carrying the same segment id twice. -/
def dupPageA : Transcript := { id := "s1", text := "hello", audio_start_time := some 3 }

/-- Second row of the duplicate page, same id as `dupPageA`. -/
def dupPageB : Transcript := { id := "s1", text := "hello again", audio_start_time := some 5 }

/-! ## Summary generation state (`useSummaryGeneration.processSummary`) -/

/-- Hook-level summary status values. -/
inductive SummaryStatus
  | idle
  | processing
  | summarizing
  | regenerating
  | completed
  | error
deriving DecidableEq, Repr

/-- One block of a legacy summary section. -/
structure Block where
  content : String
deriving DecidableEq, Repr

/-- A legacy summary section; `blocks := none` models an object without a
blocks array. -/
structure SummarySection where
  title : String
  blocks : Option (List Block)
deriving DecidableEq, Repr

/-- Summary payload carried in the `data` field of a poll result: an optional
meeting name, an optional markdown string (new flow), the legacy named
sections, and an optional explicit section order. -/
structure SummaryData where
  meetingName : Option String
  markdown : Option String
  sections : List (String × SummarySection)
  sectionOrder : Option (List String)
deriving DecidableEq, Repr

/-- The displayed summary value passed to `setAiSummary`: the raw backend
payload on restore, a markdown document, or formatted legacy sections. -/
inductive AiSummaryView
  | fromBackend (d : SummaryData)
  | markdownDoc (s : String)
  | formatted (sections : List (String × SummarySection))
deriving DecidableEq, Repr

/-- One `api_get_summary` snapshot handed to the polling callback. -/
structure PollingResult where
  status : String
  error : Option String
  data : Option SummaryData
  meetingName : Option String
deriving DecidableEq, Repr

/-- The hook state touched by the polling callback: status, error message and
the displayed summary. -/
structure SummaryUiState where
  summaryStatus : SummaryStatus
  summaryError : Option String
  aiSummary : Option AiSummaryView
deriving DecidableEq, Repr

/-- Side effects the polling callback can perform besides state updates. -/
inductive UiEffect
  | toastErrorShown (title desc : String)
  | toastSuccessShown (title : String)
  | openedModelSettings
  | titleUpdated (name : String)
  | meetingRefreshed
deriving DecidableEq, Repr

/-- Optional collaborator callbacks of the hook. -/
structure HookCallbacks where
  canOpenModelSettings : Bool
  hasMeetingUpdated : Bool
deriving DecidableEq, Repr

/-- JavaScript truthiness of the `markdown` field: present and nonempty. -/
def markdownTruthy (d : SummaryData) : Bool :=
  match d.markdown with
  | some s => !s.isEmpty
  | none => false

/-- The vacuous-content test on the legacy format: every section either has no
blocks array or an empty one (vacuously true with no sections at all). -/
def allSectionsEmpty (d : SummaryData) : Bool :=
  d.sections.all (fun kv =>
    match kv.2.blocks with
    | none => true
    | some bs => bs.isEmpty)

/-- Lookup of a legacy section by key. -/
def findSection (d : SummaryData) (key : String) : Option SummarySection :=
  (d.sections.find? (fun kv => kv.1 == key)).map (fun kv => kv.2)

/-- Legacy formatting loop: iterate the explicit section order when given,
else the payload keys; a section with a blocks array gets trimmed block
contents, a section without one is skipped. -/
def formatLegacy (d : SummaryData) : List (String × SummarySection) :=
  let keys := d.sectionOrder.getD (d.sections.map (fun kv => kv.1))
  keys.filterMap (fun key =>
    match findSection d key with
    | some s =>
      match s.blocks with
      | some bs =>
        some (key, { title := s.title
                     blocks := some (bs.map (fun b => { content := b.content.trim })) })
      | none => none
    | none => none)

/-- JavaScript `a.includes(b)` on strings. -/
def strIncludes (s pat : String) : Bool := decide (pat.toList <:+: s.toList)

/-- Default failure message used when the poll result carries no error. -/
def defaultFailMsg (isRegeneration : Bool) : String :=
  if isRegeneration then "要約の再生成に失敗しました" else "要約の生成に失敗しました"

/-- JavaScript `a || dflt` for an optional string. -/
def jsOrDefault (a : Option String) (dflt : String) : String :=
  match a with
  | some s => if s.isEmpty then dflt else s
  | none => dflt

/-- First truthy of two optional strings, as in `a || b` guarded by `if`. -/
def firstTruthy (a b : Option String) : Option String :=
  if truthyStr a then a else if truthyStr b then b else none

/-- Detection of a missing-model error message. -/
def isModelRequiredError (msg : String) : Bool :=
  strIncludes msg "model is required" ||
  strIncludes msg "\"model\":\"required\"" ||
  (strIncludes msg.toLower "model" && strIncludes msg.toLower "required")

/-- Toast description used on failure: a connection-refused message is
replaced by a remediation hint, anything else is shown as is. -/
def failToastDesc (msg : String) : String :=
  if strIncludes msg "Connection refused" then
    "LLMサービスに接続できません。Ollamaまたは設定済みのLLMプロバイダーが起動していることを確認してください。"
  else msg

/-- Suffix appended to the toast shown when a prior summary was restored. -/
def restoredDescSuffix : String := "。以前の要約を復元しました。"

/-- Error message stored when a completed legacy result is all empty. -/
def vacuousErrorMsg : String := "要約の生成は完了しましたが、空のコンテンツが返されました。"

/-- The shared error handling tail of the polling callback: store the message,
set the error status, toast, and open the model settings when the message
names a missing model and the callback is available. -/
def normalFailure (isRegeneration : Bool) (cbs : HookCallbacks)
    (st : SummaryUiState) (errorMessage : String) : SummaryUiState × List UiEffect :=
  ({ st with summaryError := some errorMessage, summaryStatus := .error },
   [.toastErrorShown (defaultFailMsg isRegeneration) (failToastDesc errorMessage)] ++
   (if isModelRequiredError errorMessage && cbs.canOpenModelSettings then
      [UiEffect.openedModelSettings]
    else []))

/-- The completed branch of the polling callback for payload `d`: update the
title when a name is present, accept a markdown result, reject an all-empty
legacy result as an error, and otherwise format and accept the legacy
sections. -/
def handleCompleted (cbs : HookCallbacks) (st : SummaryUiState)
    (pr : PollingResult) (d : SummaryData) : SummaryUiState × List UiEffect :=
  let mn := firstTruthy d.meetingName pr.meetingName
  let titleEffects : List UiEffect :=
    match mn with
    | some n => [.titleUpdated n]
    | none => []
  let refreshEffects : List UiEffect :=
    if mn.isSome && cbs.hasMeetingUpdated then [.meetingRefreshed] else []
  if markdownTruthy d then
    ({ st with aiSummary := some (.markdownDoc (d.markdown.getD ""))
               summaryStatus := .completed },
     titleEffects ++ [.toastSuccessShown "要約の生成が完了しました！"] ++ refreshEffects)
  else if allSectionsEmpty d then
    ({ st with summaryError := some vacuousErrorMsg, summaryStatus := .error },
     titleEffects)
  else
    ({ st with aiSummary := some (.formatted (formatLegacy d))
               summaryStatus := .completed },
     titleEffects ++ [.toastSuccessShown "要約の生成が完了しました！"] ++ refreshEffects)

/-- The polling callback registered by `processSummary`, as a transition on
the hook state. `reload` is the outcome of the `api_get_summary` call the
callback performs after a cancellation or a regeneration failure: the call can
throw, or return a response whose `data` field may be absent. -/
def handlePollUpdate (isRegeneration : Bool)
    (reload : Except Unit (Option SummaryData)) (cbs : HookCallbacks)
    (st : SummaryUiState) (pr : PollingResult) : SummaryUiState × List UiEffect :=
  if pr.status == "cancelled" then
    match reload with
    | .ok (some d) =>
      ({ st with aiSummary := some (.fromBackend d)
                 summaryStatus := .completed, summaryError := none }, [])
    | .ok none =>
      ({ st with summaryStatus := .idle, summaryError := none }, [])
    | .error _ =>
      ({ st with summaryStatus := .idle, summaryError := none }, [])
  else if pr.status == "error" || pr.status == "failed" then
    let errorMessage := jsOrDefault pr.error (defaultFailMsg isRegeneration)
    match isRegeneration, reload with
    | true, .ok (some d) =>
      ({ st with aiSummary := some (.fromBackend d)
                 summaryStatus := .completed, summaryError := none },
       [.toastErrorShown "要約の再生成に失敗しました" (errorMessage ++ restoredDescSuffix)])
    | true, .ok none => normalFailure true cbs st errorMessage
    | true, .error _ => normalFailure true cbs st errorMessage
    | false, _ => normalFailure false cbs st errorMessage
  else if pr.status == "completed" then
    match pr.data with
    | some d => handleCompleted cbs st pr d
    | none => (st, [])
  else (st, [])

/-- Side effects of `handleStopGeneration`; the Bool on the cancel request
records whether the backend call succeeded. -/
inductive StopEffect
  | backendCancelAttempted (succeeded : Bool)
  | pollingStopped (meetingId : String)
  | toastShown (title : String)
deriving DecidableEq, Repr

/-- `handleStopGeneration`: request backend cancellation (a thrown call is
caught and logged), then stop the polling for the meeting, reset the status to
idle, clear the error and toast. -/
def handleStopGeneration (meetingId : String) (cancelOutcome : Except Unit Unit)
    (st : SummaryUiState) : SummaryUiState × List StopEffect :=
  let requested :=
    match cancelOutcome with
    | .ok _ => StopEffect.backendCancelAttempted true
    | .error _ => StopEffect.backendCancelAttempted false
  ({ st with summaryStatus := .idle, summaryError := none },
   [requested, .pollingStopped meetingId, .toastShown "要約の生成を停止しました"])

/-! ## Summary poll lifecycle (`startSummaryPolling` in the sidebar provider) -/

/-- Maximum number of interval firings before the client-side timeout. -/
def MAX_POLLS : Nat := 200

/-- Poll cadence in milliseconds. -/
def POLL_INTERVAL_MS : Nat := 5000

/-- State of one summary poll for a meeting: the iteration counter, whether
the interval is still scheduled, and whether the meeting still has an entry in
the active-polls map. -/
structure PollState where
  pollCount : Nat
  intervalActive : Bool
  inActiveMap : Bool
deriving DecidableEq, Repr

/-- The poll state right after `startSummaryPolling` registers the interval. -/
def initialPollState : PollState :=
  { pollCount := 0, intervalActive := true, inActiveMap := true }

/-- Observable events of one interval firing. -/
inductive PollEvent
  | polledBackend
  | update (u : PollingResult)
  | intervalCleared
  | removedFromMap
deriving DecidableEq, Repr

/-- Statuses on which the loop stops polling unconditionally. -/
def isTerminalStatus (s : String) : Bool :=
  s == "completed" || s == "error" || s == "failed" || s == "cancelled"

/-- The client-side timeout message. -/
def pollTimeoutMsg : String :=
  "要約生成が15分でタイムアウトしました。再度お試しいただくか、モデル設定を確認してください。"

/-- The update object emitted on the client-side timeout. -/
def timeoutUpdate : PollingResult :=
  { status := "error", error := some pollTimeoutMsg, data := none, meetingName := none }

/-- One `setInterval` firing of the summary poll. A cleared interval never
fires again. Mirrors the callback: bump the counter, time out once the counter
reaches `MAX_POLLS`, otherwise call `api_get_summary`, forward the result to
the hook, and stop on a terminal status, on idle after the first firing, or on
a thrown poll (which is forwarded as an error update). -/
def pollTick (s : PollState) (backendResult : Except String PollingResult) :
    PollState × List PollEvent :=
  if !s.intervalActive then (s, [])
  else
    let c := s.pollCount + 1
    if MAX_POLLS ≤ c then
      ({ pollCount := c, intervalActive := false, inActiveMap := false },
       [.intervalCleared, .removedFromMap, .update timeoutUpdate])
    else
      match backendResult with
      | .ok r =>
        if isTerminalStatus r.status then
          ({ pollCount := c, intervalActive := false, inActiveMap := false },
           [.polledBackend, .update r, .intervalCleared, .removedFromMap])
        else if r.status == "idle" && decide (1 < c) then
          ({ pollCount := c, intervalActive := false, inActiveMap := false },
           [.polledBackend, .update r, .intervalCleared, .removedFromMap])
        else
          ({ pollCount := c, intervalActive := true, inActiveMap := true },
           [.polledBackend, .update r])
      | .error e =>
        ({ pollCount := c, intervalActive := false, inActiveMap := false },
         [.polledBackend,
          .update { status := "error", error := some e, data := none, meetingName := none },
          .intervalCleared, .removedFromMap])

/-- A run of the poll over successive timer firings, concatenating events. -/
def runPolls (s : PollState) : List (Except String PollingResult) → PollState × List PollEvent
  | [] => (s, [])
  | t :: ts =>
    let step := pollTick s t
    let rest := runPolls step.1 ts
    (rest.1, step.2 ++ rest.2)

/-- A backend answer on which the loop keeps polling: neither terminal nor
idle. -/
def continuesPolling (r : PollingResult) : Bool :=
  !isTerminalStatus r.status && !(r.status == "idle")

/-- A backend snapshot that keeps the loop polling. -/
def processingSnapshot : PollingResult :=
  { status := "processing", error := none, data := none, meetingName := none }

/-! ## Active-polls registry (`startSummaryPolling` and `stopSummaryPolling`) -/

/-- The active-polls registry: the map from meeting id to interval handle,
plus the trace of interval handles passed to `clearInterval` so far. -/
structure PollRegistry where
  polls : List (String × Nat)
  cleared : List Nat
deriving DecidableEq, Repr

/-- `activeSummaryPolls.get(mid)`. -/
def lookupPoll (reg : PollRegistry) (mid : String) : Option Nat :=
  (reg.polls.find? (fun kv => kv.1 == mid)).map (fun kv => kv.2)

/-- `Map.set`: replace the value under an existing key, else append. -/
def setPoll : List (String × Nat) → String → Nat → List (String × Nat)
  | [], mid, iid => [(mid, iid)]
  | kv :: rest, mid, iid =>
    if kv.1 == mid then (mid, iid) :: rest else kv :: setPoll rest mid iid

/-- `Map.delete`: drop the entry of a key. -/
def deletePoll (polls : List (String × Nat)) (mid : String) : List (String × Nat) :=
  polls.filter (fun kv => !(kv.1 == mid))

/-- Registry operations: `start` clears the interval already registered for
the meeting (when there is one) and registers the new handle; a terminal
outcome inside the poll callback clears its own captured handle and deletes
the map entry of the meeting; `stopSummaryPolling` clears and deletes only
when an entry exists. -/
inductive RegistryOp
  | start (mid : String) (newInterval : Nat)
  | terminalOutcome (mid : String) (ownInterval : Nat)
  | stop (mid : String)
deriving DecidableEq, Repr

/-- One registry transition. -/
def applyRegistryOp (reg : PollRegistry) : RegistryOp → PollRegistry
  | .start mid newInterval =>
    let cleared :=
      match lookupPoll reg mid with
      | some old => old :: reg.cleared
      | none => reg.cleared
    { polls := setPoll reg.polls mid newInterval, cleared := cleared }
  | .terminalOutcome mid ownInterval =>
    { polls := deletePoll reg.polls mid, cleared := ownInterval :: reg.cleared }
  | .stop mid =>
    match lookupPoll reg mid with
    | some iid => { polls := deletePoll reg.polls mid, cleared := iid :: reg.cleared }
    | none => reg

/-- Key uniqueness of the registry map. -/
def nodupKeys (polls : List (String × Nat)) : Prop :=
  (polls.map Prod.fst).Nodup

/-! ## Meeting recovery commit (`useTranscriptRecovery.recoverMeeting`) -/

/-- A transcript row kept in the IndexedDB checkpoint. Only the fields the
recovery control flow touches are modelled; `sequenceId` drives the preview
sort. -/
structure StoredTranscript where
  id : Option Nat
  text : String
  timestamp : String
  sequenceId : Option Nat
deriving DecidableEq, Repr

/-- Checkpoint metadata of a recoverable meeting. -/
structure RecoveryMetadata where
  title : String
  folderPath : Option String
deriving DecidableEq, Repr

/-- Result payload of `recover_audio_from_checkpoints`. -/
structure AudioRecoveryStatus where
  status : String
  chunkCount : Nat
  estimatedDurationSeconds : Nat
  message : String
deriving DecidableEq, Repr

/-- External collaborators of `recoverMeeting`, fixed for one invocation.
`Except.error` models a thrown call; `Except.ok none` for the metadata read
models a null result (both abort recovery). -/
structure RecoveryEnv where
  metadata : Except Unit (Option RecoveryMetadata)
  transcriptsRead : Except Unit (List StoredTranscript)
  backendFolderPath : Except Unit String
  audioRecovery : Except Unit AudioRecoveryStatus
  saveOutcome : Except Unit String
  cleanupOutcome : Except Unit Unit

/-- The comparator relation of the preview sort: ascending `sequenceId ?? 0`. -/
def bySequence (a b : StoredTranscript) : Prop :=
  a.sequenceId.getD 0 ≤ b.sequenceId.getD 0

instance : DecidableRel bySequence :=
  fun a b => Nat.decLe (a.sequenceId.getD 0) (b.sequenceId.getD 0)

/-- `loadMeetingTranscripts`: read from IndexedDB and sort by sequence id
(missing ids count as 0); a thrown read is caught and yields the empty
list. -/
def loadMeetingTranscripts (read : Except Unit (List StoredTranscript)) :
    List StoredTranscript :=
  match read with
  | .ok ts => List.insertionSort bySequence ts
  | .error _ => []

/-- Observable effects of one `recoverMeeting` invocation, in order. -/
inductive RecoveryEffect
  | audioRecoveryAttempted
  | committedToStorage (meetingId : String)
  | markedSaved
  | cleanupAttempted
  | removedFromRecoverableList
deriving DecidableEq, Repr

/-- Result payload of a successful recovery. -/
structure RecoveryResult where
  audioStatus : AudioRecoveryStatus
  savedMeetingId : String
deriving DecidableEq, Repr

/-- Step 3 of `recoverMeeting`: prefer the checkpoint folder path, else fall
back to the backend lookup, whose failure is caught. -/
def resolveFolderPath (metadataPath : Option String)
    (backend : Except Unit String) : Option String :=
  if truthyStr metadataPath then metadataPath
  else
    match backend with
    | .ok fp => some fp
    | .error _ => none

/-- Step 4 of `recoverMeeting`: attempt audio reconstruction when a folder
path is known; a thrown invoke is caught and reported as a failed status. -/
def runAudioRecovery (folderPath : Option String)
    (outcome : Except Unit AudioRecoveryStatus) :
    AudioRecoveryStatus × List RecoveryEffect :=
  if truthyStr folderPath then
    match outcome with
    | .ok s => (s, [.audioRecoveryAttempted])
    | .error _ =>
      ({ status := "failed", chunkCount := 0, estimatedDurationSeconds := 0
         message := "Unknown error" }, [.audioRecoveryAttempted])
  else
    ({ status := "none", chunkCount := 0, estimatedDurationSeconds := 0
       message := "No folder path available" }, [])

/-- `recoverMeeting`: load metadata and transcripts, resolve the folder path,
attempt best-effort audio recovery, commit the reconstructed meeting to
permanent storage, and only then mark the checkpoint saved, attempt non-fatal
cleanup and drop the entry from the recoverable list. A missing or thrown
metadata read, an empty transcript list, or a thrown commit aborts with an
error and performs none of the later effects. -/
def recoverMeeting (env : RecoveryEnv) :
    Except Unit RecoveryResult × List RecoveryEffect :=
  match env.metadata with
  | .error _ => (.error (), [])
  | .ok none => (.error (), [])
  | .ok (some metadata) =>
    let transcripts := loadMeetingTranscripts env.transcriptsRead
    if transcripts.isEmpty then (.error (), [])
    else
      let folderPath := resolveFolderPath metadata.folderPath env.backendFolderPath
      let audioStep := runAudioRecovery folderPath env.audioRecovery
      match env.saveOutcome with
      | .error _ => (.error (), audioStep.2)
      | .ok savedId =>
        let cleanupEffects : List RecoveryEffect :=
          if truthyStr folderPath then [.cleanupAttempted] else []
        (.ok { audioStatus := audioStep.1, savedMeetingId := savedId },
         audioStep.2 ++ [.committedToStorage savedId, .markedSaved] ++
           cleanupEffects ++ [.removedFromRecoverableList])

/-! ## Sample inputs used by witnesses -/

/-- A sample restored summary payload. -/
def sampleRestored : SummaryData :=
  { meetingName := some "Weekly sync"
    markdown := some "# Notes"
    sections := []
    sectionOrder := none }

/-- A sample hook state mid-regeneration. -/
def sampleState : SummaryUiState :=
  { summaryStatus := .regenerating, summaryError := none, aiSummary := none }

/-- Sample callbacks: both optional collaborators present. -/
def sampleCallbacks : HookCallbacks :=
  { canOpenModelSettings := true, hasMeetingUpdated := true }

/-- A failed poll snapshot. -/
def sampleFailedPoll : PollingResult :=
  { status := "error", error := some "boom", data := none, meetingName := none }

/-- A cancelled poll snapshot. -/
def sampleCancelledPoll : PollingResult :=
  { status := "cancelled", error := none, data := none, meetingName := none }

/-- A completed poll snapshot in legacy format whose only section is empty. -/
def sampleVacuousPoll : PollingResult :=
  { status := "completed", error := none
    data := some
      { meetingName := none, markdown := none
        sections := [("overview", { title := "Overview", blocks := some [] })]
        sectionOrder := none }
    meetingName := none }

/-- A sample transcript row. -/
def pageRowA : Transcript := { id := "a", text := "first", audio_start_time := some 7 }

/-- A second sample transcript row with a distinct id. -/
def pageRowB : Transcript := { id := "b", text := "second", audio_start_time := some 2 }

/-- A checkpoint session one minute old at the sample scan time. -/
def sampleCheckpoint : CheckpointMeeting :=
  { meetingId := "m1", lastUpdated := 1699999940000, folderPath := none }

/-- Sample scan time in epoch milliseconds. -/
def sampleNow : Nat := 1700000000000

/-- A checkpoint session with a recorded folder path. -/
def sampleFolderCheckpoint : CheckpointMeeting :=
  { meetingId := "m2", lastUpdated := 1699999940000, folderPath := some "rec/m2" }

/-- A recovery environment whose commit to permanent storage throws. -/
def sampleFailedSaveEnv : RecoveryEnv :=
  { metadata := Except.ok (some { title := "standup", folderPath := none })
    transcriptsRead := Except.ok
      [{ id := some 1, text := "hello", timestamp := "10:00", sequenceId := some 1 }]
    backendFolderPath := Except.error ()
    audioRecovery := Except.error ()
    saveOutcome := Except.error ()
    cleanupOutcome := Except.ok () }

/-! ## Theorems -/

/-- The audio verification step never changes the meeting identity. -/
theorem withAudioStatus_meetingId (check : String → Except Unit Bool)
    (m : CheckpointMeeting) : (withAudioStatus check m).meetingId = m.meetingId := by
  cases hm : m.folderPath with
  | none => simp [withAudioStatus, hm]
  | some fp =>
    cases hc : check fp with
    | ok b => cases b <;> simp [withAudioStatus, hm, hc]
    | error e => simp [withAudioStatus, hm, hc]

/-- Characterization of the scan filter predicate. -/
theorem keepMeetingCharacterization (now : Nat) (flags : SessionFlags)
    (m : CheckpointMeeting) :
    keepMeeting now flags m = true ↔
      ¬(truthyStr flags.justSavedMeetingId = true ∧
          flags.justSavedMeetingId = some m.meetingId) ∧
      ¬(recentStopWindow now flags = true ∧ truthyStr flags.justStoppedKey = true ∧
          now - m.lastUpdated < stopGraceWindowMs) ∧
      now - retentionWindowMs < m.lastUpdated ∧ m.lastUpdated < now - minAgeMs := by
  unfold keepMeeting
  split_ifs with h1 h2
  · simp only [Bool.and_eq_true, beq_iff_eq] at h1
    constructor
    · intro h; cases h
    · intro hrhs; exact absurd h1 hrhs.1
  · simp only [Bool.and_eq_true, decide_eq_true_eq] at h2
    constructor
    · intro h; cases h
    · intro hrhs; exact absurd ⟨h2.1.1, h2.1.2, h2.2⟩ hrhs.2.1
  · simp only [Bool.and_eq_true, decide_eq_true_eq]
    constructor
    · intro hb
      refine ⟨?_, ?_, hb.1, hb.2⟩
      · intro hc
        apply h1
        simp only [Bool.and_eq_true, beq_iff_eq]
        exact hc
      · intro hc
        apply h2
        simp only [Bool.and_eq_true, decide_eq_true_eq]
        exact ⟨⟨hc.1, hc.2.1⟩, hc.2.2⟩
    · intro hrhs
      exact ⟨hrhs.2.2.1, hrhs.2.2.2⟩

/-- Claim C2: a stored checkpoint is listed as a recoverable candidate exactly
when it is strictly inside the retention window, strictly older than the
minimum age, not flagged just saved, and not protected by the just-stopped
grace window; a checkpoint 10 seconds old is never listed, one at least
8 days old is never listed, and one strictly between the bounds with no
markers set is listed; the audio verification stage preserves the listed
identities. -/
theorem recoverableScanWindow (now : Nat) (flags : SessionFlags)
    (check : String → Except Unit Bool)
    (meetings : List CheckpointMeeting) (m : CheckpointMeeting) :
    (m ∈ meetings →
      (m ∈ recoverableCandidates now flags meetings ↔
        ¬(truthyStr flags.justSavedMeetingId = true ∧
            flags.justSavedMeetingId = some m.meetingId) ∧
        ¬(recentStopWindow now flags = true ∧ truthyStr flags.justStoppedKey = true ∧
            now - m.lastUpdated < stopGraceWindowMs) ∧
        now - retentionWindowMs < m.lastUpdated ∧ m.lastUpdated < now - minAgeMs)) ∧
    (m.lastUpdated = now - 10 * 1000 → m ∉ recoverableCandidates now flags meetings) ∧
    (m.lastUpdated + 8 * 24 * 60 * 60 * 1000 ≤ now →
      m ∉ recoverableCandidates now flags meetings) ∧
    (m ∈ meetings → now - retentionWindowMs < m.lastUpdated →
      m.lastUpdated < now - minAgeMs →
      m ∈ recoverableCandidates now noFlags meetings) ∧
    ((checkForRecoverableTranscripts now flags check meetings).map
        CheckpointMeeting.meetingId =
      (recoverableCandidates now flags meetings).map CheckpointMeeting.meetingId) := by
  refine ⟨?_, ?_, ?_, ?_, ?_⟩
  · intro hmem
    rw [recoverableCandidates, List.mem_filter, keepMeetingCharacterization]
    simp [hmem]
  · intro h10 hmem
    rw [recoverableCandidates, List.mem_filter, keepMeetingCharacterization] at hmem
    have hage := hmem.2.2.2.2
    rw [h10] at hage
    simp only [minAgeMs] at hage
    omega
  · intro h8 hmem
    rw [recoverableCandidates, List.mem_filter, keepMeetingCharacterization] at hmem
    have hr := hmem.2.2.2.1
    simp only [retentionWindowMs] at hr
    omega
  · intro hmem hr ha
    rw [recoverableCandidates, List.mem_filter]
    refine ⟨hmem, (keepMeetingCharacterization now noFlags m).mpr ?_⟩
    refine ⟨?_, ?_, hr, ha⟩
    · intro hc
      simpa [noFlags, truthyStr] using hc.1
    · intro hc
      simpa [noFlags, recentStopWindow] using hc.1
  · rw [checkForRecoverableTranscripts, List.map_map]
    apply List.map_congr_left
    intro a _
    exact withAudioStatus_meetingId check a

/-- Witness for C2: a one-minute-old checkpoint with no markers is listed. -/
theorem recoverableScanWindow_witness :
    sampleCheckpoint ∈ recoverableCandidates sampleNow noFlags [sampleCheckpoint] :=
  (recoverableScanWindow sampleNow noFlags (fun _ => Except.ok false)
      [sampleCheckpoint] sampleCheckpoint).2.2.2.1
    (by simp) (by decide) (by decide)

/-- Claim C8: the audio verification stage of the scan never excludes a
candidate: the output has the same length and the same identities; a candidate
whose folder passes `has_audio_checkpoints` is unchanged, while a false answer
or a thrown check only clears the folder path. -/
theorem audioCheckAnnotatesWithoutExcluding (now : Nat) (flags : SessionFlags)
    (check : String → Except Unit Bool) (meetings : List CheckpointMeeting) :
    ((checkForRecoverableTranscripts now flags check meetings).length =
      (recoverableCandidates now flags meetings).length) ∧
    ((checkForRecoverableTranscripts now flags check meetings).map
        CheckpointMeeting.meetingId =
      (recoverableCandidates now flags meetings).map CheckpointMeeting.meetingId) ∧
    (∀ m ∈ recoverableCandidates now flags meetings,
      withAudioStatus check m ∈ checkForRecoverableTranscripts now flags check meetings) ∧
    (∀ m : CheckpointMeeting, ∀ fp, m.folderPath = some fp →
      (check fp = Except.ok true → withAudioStatus check m = m) ∧
      (check fp ≠ Except.ok true →
        (withAudioStatus check m).folderPath = none ∧
        (withAudioStatus check m).meetingId = m.meetingId)) := by
  refine ⟨?_, ?_, ?_, ?_⟩
  · simp [checkForRecoverableTranscripts]
  · rw [checkForRecoverableTranscripts, List.map_map]
    apply List.map_congr_left
    intro a _
    exact withAudioStatus_meetingId check a
  · intro m hm
    exact List.mem_map_of_mem (withAudioStatus check) hm
  · intro m fp hfp
    constructor
    · intro htrue
      simp [withAudioStatus, hfp, htrue]
    · intro hfalse
      cases hc : check fp with
      | ok b =>
        cases b with
        | true => exact absurd hc hfalse
        | false => simp [withAudioStatus, hfp, hc]
      | error e => simp [withAudioStatus, hfp, hc]

/-- Witness for C8: a candidate whose audio check answers false stays listed
with its folder path cleared. -/
theorem audioCheckAnnotatesWithoutExcluding_witness :
    (withAudioStatus (fun _ => Except.ok false) sampleFolderCheckpoint).folderPath = none ∧
    (withAudioStatus (fun _ => Except.ok false) sampleFolderCheckpoint).meetingId =
      sampleFolderCheckpoint.meetingId :=
  ((audioCheckAnnotatesWithoutExcluding 0 noFlags (fun _ => Except.ok false) []).2.2.2
      sampleFolderCheckpoint "rec/m2" rfl).2 (by simp)

/-- Claim C1: during a regeneration, a terminal error or failed poll status
with a prior summary available in storage makes the callback reload that
summary, display it with status completed and a cleared error, and surface the
failure only as an error toast. -/
theorem regenerationFailureRestoresPrior (cbs : HookCallbacks)
    (st : SummaryUiState) (pr : PollingResult)
    (reload : Except Unit (Option SummaryData)) (d : SummaryData)
    (hterm : pr.status = "error" ∨ pr.status = "failed")
    (hprior : reload = Except.ok (some d)) :
    handlePollUpdate true reload cbs st pr =
      ({ st with aiSummary := some (.fromBackend d)
                 summaryStatus := .completed, summaryError := none },
       [.toastErrorShown "要約の再生成に失敗しました"
          (jsOrDefault pr.error (defaultFailMsg true) ++ restoredDescSuffix)]) := by
  subst hprior
  rcases hterm with h | h <;> simp [handlePollUpdate, h]

/-- Witness for C1 at a concrete failed regeneration poll. -/
theorem regenerationFailureRestoresPrior_witness :
    handlePollUpdate true (Except.ok (some sampleRestored)) sampleCallbacks
        sampleState sampleFailedPoll =
      ({ sampleState with aiSummary := some (.fromBackend sampleRestored)
                          summaryStatus := .completed, summaryError := none },
       [.toastErrorShown "要約の再生成に失敗しました"
          (jsOrDefault sampleFailedPoll.error (defaultFailMsg true) ++ restoredDescSuffix)]) :=
  regenerationFailureRestoresPrior sampleCallbacks sampleState sampleFailedPoll
    (Except.ok (some sampleRestored)) sampleRestored (Or.inl rfl) rfl

/-- Claim C5: on a cancelled poll status the callback reloads the stored
summary; when one exists it is displayed with status completed and a cleared
error, and only when none exists does the status return to idle. -/
theorem cancellationRestoresPriorSummary (isRegeneration : Bool)
    (cbs : HookCallbacks) (st : SummaryUiState) (pr : PollingResult)
    (reload : Except Unit (Option SummaryData))
    (hc : pr.status = "cancelled") :
    (∀ d, reload = Except.ok (some d) →
      handlePollUpdate isRegeneration reload cbs st pr =
        ({ st with aiSummary := some (.fromBackend d)
                   summaryStatus := .completed, summaryError := none }, [])) ∧
    (reload = Except.ok none →
      handlePollUpdate isRegeneration reload cbs st pr =
        ({ st with summaryStatus := .idle, summaryError := none }, [])) := by
  constructor
  · intro d hd; subst hd; simp [handlePollUpdate, hc]
  · intro hd; subst hd; simp [handlePollUpdate, hc]

/-- Witness for C5 at a concrete cancelled poll with a stored summary. -/
theorem cancellationRestoresPriorSummary_witness :
    handlePollUpdate true (Except.ok (some sampleRestored)) sampleCallbacks
        sampleState sampleCancelledPoll =
      ({ sampleState with aiSummary := some (.fromBackend sampleRestored)
                          summaryStatus := .completed, summaryError := none }, []) :=
  (cancellationRestoresPriorSummary true sampleCallbacks sampleState
      sampleCancelledPoll (Except.ok (some sampleRestored)) rfl).1
    sampleRestored rfl

/-- Claim C9: a completed poll result in the legacy section format whose
sections all lack blocks is rejected: the callback stores the vacuous-content
error message and sets the status to error. -/
theorem vacuousLegacyCompletionIsError (isRegeneration : Bool)
    (reload : Except Unit (Option SummaryData)) (cbs : HookCallbacks)
    (st : SummaryUiState) (pr : PollingResult) (d : SummaryData)
    (hst : pr.status = "completed") (hdata : pr.data = some d)
    (hmd : markdownTruthy d = false) (hempty : allSectionsEmpty d = true) :
    (handlePollUpdate isRegeneration reload cbs st pr).1.summaryStatus = .error ∧
    (handlePollUpdate isRegeneration reload cbs st pr).1.summaryError =
      some vacuousErrorMsg := by
  simp [handlePollUpdate, hst, hdata, handleCompleted, hmd, hempty]

/-- Witness for C9 at a concrete all-empty legacy completion. -/
theorem vacuousLegacyCompletionIsError_witness :
    (handlePollUpdate false (Except.ok none) sampleCallbacks sampleState
        sampleVacuousPoll).1.summaryStatus = .error ∧
    (handlePollUpdate false (Except.ok none) sampleCallbacks sampleState
        sampleVacuousPoll).1.summaryError = some vacuousErrorMsg :=
  vacuousLegacyCompletionIsError false (Except.ok none) sampleCallbacks
    sampleState sampleVacuousPoll
    { meetingName := none, markdown := none
      sections := [("overview", { title := "Overview", blocks := some [] })]
      sectionOrder := none }
    rfl rfl rfl rfl

/-- Claim C10: `handleStopGeneration` reaches a terminal client-side state no
matter whether the backend cancel call succeeds or throws: polling for the
meeting is stopped, the status is reset to idle and the error is cleared. -/
theorem stopGenerationAlwaysTerminal (meetingId : String)
    (cancelOutcome : Except Unit Unit) (st : SummaryUiState) :
    (handleStopGeneration meetingId cancelOutcome st).1.summaryStatus = .idle ∧
    (handleStopGeneration meetingId cancelOutcome st).1.summaryError = none ∧
    StopEffect.pollingStopped meetingId ∈
      (handleStopGeneration meetingId cancelOutcome st).2 := by
  cases cancelOutcome <;> simp [handleStopGeneration]

/-- One append step always leaves the list sorted by start key. -/
theorem appendPage_sorted (prev page : List Transcript) :
    List.Sorted byStart (appendPage prev page) :=
  List.sorted_insertionSort byStart _

/-- One append step preserves id uniqueness when the incoming page is
internally duplicate-free. -/
theorem appendPage_nodupIds (prev page : List Transcript)
    (h1 : (prev.map Transcript.id).Nodup) (h2 : (page.map Transcript.id).Nodup) :
    ((appendPage prev page).map Transcript.id).Nodup := by
  have hperm : List.Perm (appendPage prev page)
      (prev ++ page.filter (fun t => !((prev.map (fun t => t.id)).contains t.id))) :=
    List.perm_insertionSort _ _
  rw [(hperm.map Transcript.id).nodup_iff, List.map_append, List.nodup_append]
  refine ⟨h1, ?_, ?_⟩
  · exact List.Nodup.sublist ((List.filter_sublist _).map Transcript.id) h2
  · intro a ha hb
    rcases List.mem_map.mp hb with ⟨u, hu, hua⟩
    have hpred := (List.mem_filter.mp hu).2
    have hmem : u.id ∈ prev.map (fun t => t.id) := by
      rw [hua]; exact ha
    have hcont : (prev.map (fun t => t.id)).contains u.id = true := by
      simpa using hmem
    rw [hcont] at hpred
    simp at hpred

/-- Counterexample to claim C4 as stated: a single page that itself carries
the same segment id twice survives the merge with both rows, because the
dedup filter only checks incoming ids against already-loaded ids. -/
theorem paginationMergeDuplicateIds :
    ¬ (((loadSequence [] [[dupPageA, dupPageB]]).map Transcript.id).Nodup) := by
  decide

/-- Claim C4 (amended): for every sequence of paginated loadMore reads
appended to an existing transcript list, provided the existing list is sorted
with duplicate-free ids and every arriving page is internally duplicate-free,
the merged list is sorted in nondecreasing order of `audio_start_time ?? 0`
and contains no two entries with the same segment id, regardless of the order
in which pages arrive. -/
theorem paginationMergeSortedNodup (init : List Transcript)
    (pages : List (List Transcript))
    (hsorted : List.Sorted byStart init)
    (hinit : (init.map Transcript.id).Nodup)
    (hpages : ∀ p ∈ pages, (p.map Transcript.id).Nodup) :
    List.Sorted byStart (loadSequence init pages) ∧
    ((loadSequence init pages).map Transcript.id).Nodup := by
  induction pages generalizing init with
  | nil => exact ⟨hsorted, hinit⟩
  | cons p ps ih =>
    simp only [loadSequence, List.foldl_cons]
    exact ih (appendPage init p) (appendPage_sorted init p)
      (appendPage_nodupIds init p hinit (hpages p (List.mem_cons_self p ps)))
      (fun q hq => hpages q (List.mem_cons_of_mem p hq))

/-- Witness for C4 at a concrete two-row page appended to the empty list. -/
theorem paginationMergeSortedNodup_witness :
    List.Sorted byStart (loadSequence [] [[pageRowA, pageRowB]]) ∧
    ((loadSequence [] [[pageRowA, pageRowB]]).map Transcript.id).Nodup :=
  paginationMergeSortedNodup [] [[pageRowA, pageRowB]] (by simp) (by simp)
    (by
      intro p hp
      simp only [List.mem_singleton] at hp
      subst hp
      decide)

/-- Keys reachable after a `Map.set`: the old keys plus the written key. -/
theorem mem_keys_setPoll (l : List (String × Nat)) (mid : String) (iid : Nat)
    (a : String) :
    a ∈ (setPoll l mid iid).map Prod.fst ↔ a ∈ l.map Prod.fst ∨ a = mid := by
  induction l with
  | nil => simp [setPoll]
  | cons kv rest ih =>
    by_cases hk : kv.1 = mid
    · have hb : (kv.1 == mid) = true := by simpa using hk
      rw [setPoll, if_pos hb]
      simp only [List.map_cons, List.mem_cons, hk]
      tauto
    · have hb : (kv.1 == mid) = false := by simpa using hk
      rw [setPoll, if_neg (by simp [hb])]
      simp only [List.map_cons, List.mem_cons, ih]
      tauto

/-- A `Map.set` preserves key uniqueness. -/
theorem nodupKeys_setPoll (l : List (String × Nat)) (mid : String) (iid : Nat)
    (h : nodupKeys l) : nodupKeys (setPoll l mid iid) := by
  unfold nodupKeys at h ⊢
  induction l with
  | nil => simp [setPoll]
  | cons kv rest ih =>
    rw [List.map_cons, List.nodup_cons] at h
    by_cases hk : kv.1 = mid
    · have hb : (kv.1 == mid) = true := by simpa using hk
      simp only [setPoll, hb, if_true, List.map_cons, List.nodup_cons]
      exact ⟨hk ▸ h.1, h.2⟩
    · have hb : (kv.1 == mid) = false := by simpa using hk
      simp only [setPoll, hb, Bool.false_eq_true, if_false, List.map_cons,
        List.nodup_cons]
      refine ⟨?_, ih h.2⟩
      intro hmem
      rcases (mem_keys_setPoll rest mid iid kv.1).mp hmem with hh | hh
      · exact h.1 hh
      · exact hk hh

/-- Looking up the key a `Map.set` just wrote finds the new value. -/
theorem find_setPoll (l : List (String × Nat)) (mid : String) (iid : Nat) :
    (setPoll l mid iid).find? (fun kv => kv.1 == mid) = some (mid, iid) := by
  induction l with
  | nil => simp [setPoll]
  | cons kv rest ih =>
    by_cases hk : kv.1 = mid
    · have hb : (kv.1 == mid) = true := by simpa using hk
      simp [setPoll, hb]
    · have hb : (kv.1 == mid) = false := by simpa using hk
      simp [setPoll, hb, ih]

/-- Looking up a key a `Map.delete` just removed finds nothing. -/
theorem find_deletePoll (l : List (String × Nat)) (mid : String) :
    (deletePoll l mid).find? (fun kv => kv.1 == mid) = none := by
  induction l with
  | nil => simp [deletePoll]
  | cons kv rest ih =>
    by_cases hk : (kv.1 == mid) = true
    · rw [deletePoll] at ih ⊢
      simp [hk, ih]
    · have hb : (kv.1 == mid) = false := by simpa using hk
      rw [deletePoll] at ih ⊢
      simp [hb, ih]

/-- A `Map.delete` preserves key uniqueness. -/
theorem nodupKeys_deletePoll (l : List (String × Nat)) (mid : String)
    (h : nodupKeys l) : nodupKeys (deletePoll l mid) :=
  List.Nodup.sublist ((List.filter_sublist l).map Prod.fst) h

/-- Claim C6: the registry keeps at most one poll interval per meeting:
every operation preserves key uniqueness, `startSummaryPolling` clears the
previously registered interval of the meeting before registering the new
handle, and a terminal outcome or an explicit stop removes the entry of the
meeting. -/
theorem pollRegistrySingleActive (reg : PollRegistry) (mid : String)
    (newInterval ownInterval : Nat) :
    (∀ op : RegistryOp, nodupKeys reg.polls → nodupKeys (applyRegistryOp reg op).polls) ∧
    lookupPoll (applyRegistryOp reg (.start mid newInterval)) mid = some newInterval ∧
    (∀ old, lookupPoll reg mid = some old →
      old ∈ (applyRegistryOp reg (.start mid newInterval)).cleared) ∧
    ownInterval ∈ (applyRegistryOp reg (.terminalOutcome mid ownInterval)).cleared ∧
    lookupPoll (applyRegistryOp reg (.terminalOutcome mid ownInterval)) mid = none ∧
    lookupPoll (applyRegistryOp reg (.stop mid)) mid = none := by
  refine ⟨?_, ?_, ?_, ?_, ?_, ?_⟩
  · intro op h
    cases op with
    | start mid2 id2 => exact nodupKeys_setPoll _ _ _ h
    | terminalOutcome mid2 own2 => exact nodupKeys_deletePoll _ _ h
    | stop mid2 =>
      cases hl : lookupPoll reg mid2 with
      | some iid =>
        simpa [applyRegistryOp, hl] using nodupKeys_deletePoll reg.polls mid2 h
      | none => simpa [applyRegistryOp, hl] using h
  · simp [applyRegistryOp, lookupPoll, find_setPoll]
  · intro old hold
    simp [applyRegistryOp, hold]
  · simp [applyRegistryOp]
  · simp [applyRegistryOp, lookupPoll, find_deletePoll]
  · cases hl : lookupPoll reg mid with
    | some iid =>
      simp only [applyRegistryOp]
      rw [hl]
      simp [lookupPoll, find_deletePoll]
    | none =>
      simp only [applyRegistryOp]
      rw [hl]
      exact hl

/-- Witness for C6: restarting polling for a registered meeting replaces its
interval handle and clears the old one. -/
theorem pollRegistrySingleActive_witness :
    lookupPoll (applyRegistryOp { polls := [("m1", 7)], cleared := [] }
        (.start "m1" 8)) "m1" = some 8 ∧
    7 ∈ (applyRegistryOp { polls := [("m1", 7)], cleared := [] }
        (.start "m1" 8)).cleared :=
  ⟨(pollRegistrySingleActive { polls := [("m1", 7)], cleared := [] } "m1" 8 0).2.1,
   (pollRegistrySingleActive { polls := [("m1", 7)], cleared := [] } "m1" 8 0).2.2.1
     7 (by decide)⟩

/-- The audio recovery step either performs nothing or only records the
attempt. -/
theorem runAudioRecovery_effects (fp : Option String)
    (o : Except Unit AudioRecoveryStatus) :
    (runAudioRecovery fp o).2 = [] ∨
    (runAudioRecovery fp o).2 = [RecoveryEffect.audioRecoveryAttempted] := by
  unfold runAudioRecovery
  split_ifs with h
  · cases o <;> simp
  · simp

/-- Two adjacent elements embed as a sublist past any prefix. -/
theorem pair_sublist_past_prefix (c m' : RecoveryEffect)
    (x w : List RecoveryEffect) :
    List.Sublist [c, m'] (x ++ c :: m' :: w) :=
  List.Sublist.trans (((List.nil_sublist w).cons₂ m').cons₂ c)
    (List.sublist_append_right x (c :: m' :: w))

/-- Claim C7: `recoverMeeting` marks the checkpoint saved only after the
commit to permanent storage succeeded (the mark follows the commit in the
effect trace), and a missing metadata read, an empty transcript load, or a
thrown commit aborts with an error without marking the checkpoint saved and
without dropping it from the recoverable list. -/
theorem recoveryMarksSavedOnlyAfterCommit (env : RecoveryEnv) :
    (RecoveryEffect.markedSaved ∈ (recoverMeeting env).2 →
      ∃ savedId, env.saveOutcome = Except.ok savedId ∧
        List.Sublist [RecoveryEffect.committedToStorage savedId,
          RecoveryEffect.markedSaved] (recoverMeeting env).2) ∧
    ((env.metadata = Except.error () ∨ env.metadata = Except.ok none) →
      (recoverMeeting env).1 = Except.error () ∧ (recoverMeeting env).2 = []) ∧
    (loadMeetingTranscripts env.transcriptsRead = [] →
      (recoverMeeting env).1 = Except.error () ∧
      RecoveryEffect.markedSaved ∉ (recoverMeeting env).2 ∧
      RecoveryEffect.removedFromRecoverableList ∉ (recoverMeeting env).2) ∧
    (env.saveOutcome = Except.error () →
      (recoverMeeting env).1 = Except.error () ∧
      RecoveryEffect.markedSaved ∉ (recoverMeeting env).2 ∧
      RecoveryEffect.removedFromRecoverableList ∉ (recoverMeeting env).2) := by
  obtain ⟨md, tr, bfp, ar, so, co⟩ := env
  cases md with
  | error e =>
    cases e
    have heq : recoverMeeting ⟨Except.error (), tr, bfp, ar, so, co⟩ =
        (Except.error (), []) := rfl
    refine ⟨?_, ?_, ?_, ?_⟩ <;> rw [heq] <;> simp
  | ok mo =>
    cases mo with
    | none =>
      have heq : recoverMeeting ⟨Except.ok none, tr, bfp, ar, so, co⟩ =
          (Except.error (), []) := rfl
      refine ⟨?_, ?_, ?_, ?_⟩ <;> rw [heq] <;> simp
    | some metadata =>
      by_cases ht : (loadMeetingTranscripts tr).isEmpty = true
      · have heq : recoverMeeting ⟨Except.ok (some metadata), tr, bfp, ar, so, co⟩ =
            (Except.error (), []) := by
          simp [recoverMeeting, ht]
        refine ⟨?_, ?_, ?_, ?_⟩ <;> rw [heq] <;> simp
      · have hb : (loadMeetingTranscripts tr).isEmpty = false := by
          simpa using ht
        cases so with
        | error u =>
          cases u
          have heq : recoverMeeting
              ⟨Except.ok (some metadata), tr, bfp, ar, Except.error (), co⟩ =
              (Except.error (),
               (runAudioRecovery (resolveFolderPath metadata.folderPath bfp) ar).2) := by
            simp [recoverMeeting, hb]
          refine ⟨?_, ?_, ?_, ?_⟩
          · intro h
            rw [heq] at h
            rcases runAudioRecovery_effects
                (resolveFolderPath metadata.folderPath bfp) ar with ha | ha <;>
              rw [ha] at h <;> simp at h
          · intro h
            rcases h with h | h <;> simp at h
          · intro h
            rw [h] at hb
            simp at hb
          · intro _
            rw [heq]
            refine ⟨rfl, ?_, ?_⟩ <;>
              rcases runAudioRecovery_effects
                  (resolveFolderPath metadata.folderPath bfp) ar with ha | ha <;>
                rw [ha] <;> simp
        | ok savedId =>
          refine ⟨?_, ?_, ?_, ?_⟩
          · intro _
            refine ⟨savedId, rfl, ?_⟩
            have heq : (recoverMeeting
                ⟨Except.ok (some metadata), tr, bfp, ar, Except.ok savedId, co⟩).2 =
                (runAudioRecovery (resolveFolderPath metadata.folderPath bfp) ar).2 ++
                [RecoveryEffect.committedToStorage savedId,
                  RecoveryEffect.markedSaved] ++
                (if truthyStr (resolveFolderPath metadata.folderPath bfp) then
                    [RecoveryEffect.cleanupAttempted]
                  else ([] : List RecoveryEffect)) ++
                [RecoveryEffect.removedFromRecoverableList] := by
              simp [recoverMeeting, hb]
            rw [heq]
            have hassoc : ∀ (a cl : List RecoveryEffect),
                a ++ [RecoveryEffect.committedToStorage savedId,
                  RecoveryEffect.markedSaved] ++ cl ++
                  [RecoveryEffect.removedFromRecoverableList] =
                a ++ RecoveryEffect.committedToStorage savedId ::
                  RecoveryEffect.markedSaved ::
                  (cl ++ [RecoveryEffect.removedFromRecoverableList]) := by
              intro a cl
              simp
            rw [hassoc]
            exact pair_sublist_past_prefix _ _ _ _
          · intro h
            rcases h with h | h <;> simp at h
          · intro h
            rw [h] at hb
            simp at hb
          · intro h
            simp at h

/-- Witness for C7: a thrown commit leaves the checkpoint unmarked and still
listed. -/
theorem recoveryMarksSavedOnlyAfterCommit_witness :
    (recoverMeeting sampleFailedSaveEnv).1 = Except.error () ∧
    RecoveryEffect.markedSaved ∉ (recoverMeeting sampleFailedSaveEnv).2 ∧
    RecoveryEffect.removedFromRecoverableList ∉ (recoverMeeting sampleFailedSaveEnv).2 :=
  (recoveryMarksSavedOnlyAfterCommit sampleFailedSaveEnv).2.2.2 rfl

/-- A cleared interval never fires: running any tick stream from an inactive
poll state produces no further events. -/
theorem runPolls_inactive (s : PollState) (h : s.intervalActive = false)
    (ts : List (Except String PollingResult)) : runPolls s ts = (s, []) := by
  induction ts with
  | nil => rfl
  | cons t ts ih =>
    simp [runPolls, pollTick, h, ih]

/-- Behaviour of the poll loop over a stream of answers that keep it polling,
from an arbitrary live counter value: under the bound the loop stays live and
just forwards results; once the counter would reach the bound it emits the
timeout update exactly once, clears the interval, leaves the map, and stops
calling the backend. -/
theorem runPolls_continuing (ts : List (Except String PollingResult)) :
    (∀ t ∈ ts, ∃ r, t = Except.ok r ∧ continuesPolling r = true) →
    ∀ k, k < MAX_POLLS →
      (MAX_POLLS ≤ k + ts.length →
        (runPolls ⟨k, true, true⟩ ts).2.count (PollEvent.update timeoutUpdate) = 1 ∧
        (runPolls ⟨k, true, true⟩ ts).1.intervalActive = false ∧
        (runPolls ⟨k, true, true⟩ ts).1.inActiveMap = false ∧
        (runPolls ⟨k, true, true⟩ ts).2.count PollEvent.polledBackend =
          MAX_POLLS - 1 - k) ∧
      (k + ts.length < MAX_POLLS →
        (runPolls ⟨k, true, true⟩ ts).1 = ⟨k + ts.length, true, true⟩ ∧
        (runPolls ⟨k, true, true⟩ ts).2.count (PollEvent.update timeoutUpdate) = 0 ∧
        (runPolls ⟨k, true, true⟩ ts).2.count PollEvent.polledBackend = ts.length) := by
  induction ts with
  | nil =>
    intro _ k hk
    refine ⟨?_, ?_⟩
    · intro hge
      simp only [List.length_nil, Nat.add_zero] at hge
      omega
    · intro _
      refine ⟨?_, ?_, ?_⟩ <;> simp [runPolls]
  | cons t ts ih =>
    intro hts k hk
    obtain ⟨r, heq, hcont⟩ := hts t (List.mem_cons_self t ts)
    subst heq
    have hts' : ∀ u ∈ ts, ∃ r, u = Except.ok r ∧ continuesPolling r = true :=
      fun u hu => hts u (List.mem_cons_of_mem _ hu)
    have h1 : isTerminalStatus r.status = false := by
      rcases hx : isTerminalStatus r.status with _ | _
      · rfl
      · rw [continuesPolling, hx] at hcont
        simp at hcont
    have h2 : (r.status == "idle") = false := by
      rcases hx : r.status == "idle" with _ | _
      · rfl
      · rw [continuesPolling, hx] at hcont
        simp at hcont
    have hne : PollEvent.update r ≠ PollEvent.update timeoutUpdate := by
      intro hx
      have hr : r = timeoutUpdate := by injection hx
      rw [hr] at h1
      simp [timeoutUpdate, isTerminalStatus] at h1
    by_cases hk1 : MAX_POLLS ≤ k + 1
    · have hstep : pollTick ⟨k, true, true⟩ (Except.ok r) =
          ({ pollCount := k + 1, intervalActive := false, inActiveMap := false },
           [.intervalCleared, .removedFromMap, .update timeoutUpdate]) := by
        simp [pollTick, hk1]
      have hinact := runPolls_inactive ⟨k + 1, false, false⟩ rfl ts
      refine ⟨?_, ?_⟩
      · intro _
        simp only [runPolls, hstep, hinact]
        refine ⟨?_, ?_, ?_, ?_⟩
        · decide
        · trivial
        · trivial
        · have hc : List.count PollEvent.polledBackend
              ([PollEvent.intervalCleared, PollEvent.removedFromMap,
                PollEvent.update timeoutUpdate] ++ ([] : List PollEvent)) = 0 := by
            decide
          rw [hc]
          omega
      · intro hlt
        exfalso
        simp only [List.length_cons] at hlt
        omega
    · have hk1' : k + 1 < MAX_POLLS := by omega
      have hstep : pollTick ⟨k, true, true⟩ (Except.ok r) =
          ({ pollCount := k + 1, intervalActive := true, inActiveMap := true },
           [.polledBackend, .update r]) := by
        simp [pollTick, hk1, h1, h2]
      have ihapp := ih hts' (k + 1) hk1'
      refine ⟨?_, ?_⟩
      · intro hge
        have hge' : MAX_POLLS ≤ k + 1 + ts.length := by
          simp only [List.length_cons] at hge
          omega
        obtain ⟨c1, c2, c3, c4⟩ := ihapp.1 hge'
        simp only [runPolls, hstep]
        refine ⟨?_, c2, c3, ?_⟩
        · rw [List.count_append, c1]
          have : List.count (PollEvent.update timeoutUpdate)
              [PollEvent.polledBackend, PollEvent.update r] = 0 := by
            rw [List.count_cons_of_ne (by decide), List.count_cons_of_ne ?hne,
              List.count_nil]
            case hne => exact fun hx => hne hx.symm
          rw [this]
        · rw [List.count_append, c4]
          have : List.count PollEvent.polledBackend
              [PollEvent.polledBackend, PollEvent.update r] = 1 := by
            rw [List.count_cons_self,
              List.count_cons_of_ne (fun hx => PollEvent.noConfusion hx),
              List.count_nil]
          rw [this]
          simp only [List.length_cons] at hge ⊢
          omega
      · intro hlt
        have hlt' : k + 1 + ts.length < MAX_POLLS := by
          simp only [List.length_cons] at hlt
          omega
        obtain ⟨c1, c2, c3⟩ := ihapp.2 hlt'
        simp only [runPolls, hstep]
        refine ⟨?_, ?_, ?_⟩
        · rw [c1]
          simp only [List.length_cons, PollState.mk.injEq]
          refine ⟨by omega, ?_, ?_⟩ <;> trivial
        · rw [List.count_append, c2]
          have : List.count (PollEvent.update timeoutUpdate)
              [PollEvent.polledBackend, PollEvent.update r] = 0 := by
            rw [List.count_cons_of_ne (by decide), List.count_cons_of_ne ?hne2,
              List.count_nil]
            case hne2 => exact fun hx => hne hx.symm
          rw [this]
        · rw [List.count_append, c3]
          have : List.count PollEvent.polledBackend
              [PollEvent.polledBackend, PollEvent.update r] = 1 := by
            rw [List.count_cons_self,
              List.count_cons_of_ne (fun hx => PollEvent.noConfusion hx),
              List.count_nil]
          rw [this]
          simp only [List.length_cons]
          omega

/-- Claim C3: a summary poll loop that never receives a terminal status emits
the timeout-specific error update exactly once at the configured bound, with
its interval cleared and its entry removed from the active-polls map, and the
backend is polled at most `MAX_POLLS - 1` times no matter how many further
timer firings occur. -/
theorem summaryPollingTimesOutOnce (ts : List (Except String PollingResult))
    (hts : ∀ t ∈ ts, ∃ r, t = Except.ok r ∧ continuesPolling r = true)
    (hlen : MAX_POLLS ≤ ts.length) :
    (runPolls initialPollState ts).2.count (PollEvent.update timeoutUpdate) = 1 ∧
    (runPolls initialPollState ts).1.intervalActive = false ∧
    (runPolls initialPollState ts).1.inActiveMap = false ∧
    (runPolls initialPollState ts).2.count PollEvent.polledBackend =
      MAX_POLLS - 1 := by
  have h := (runPolls_continuing ts hts 0 (by decide)).1 (by simpa using hlen)
  simpa [initialPollState] using h

/-- Witness for C3: two hundred processing answers in a row trigger exactly
one timeout. -/
theorem summaryPollingTimesOutOnce_witness :
    (runPolls initialPollState
        (List.replicate 200 (Except.ok processingSnapshot))).2.count
      (PollEvent.update timeoutUpdate) = 1 ∧
    (runPolls initialPollState
        (List.replicate 200 (Except.ok processingSnapshot))).1.intervalActive = false ∧
    (runPolls initialPollState
        (List.replicate 200 (Except.ok processingSnapshot))).1.inActiveMap = false ∧
    (runPolls initialPollState
        (List.replicate 200 (Except.ok processingSnapshot))).2.count
      PollEvent.polledBackend = MAX_POLLS - 1 :=
  summaryPollingTimesOutOnce (List.replicate 200 (Except.ok processingSnapshot))
    (by
      intro t ht
      rw [List.eq_of_mem_replicate ht]
      exact ⟨processingSnapshot, rfl, by decide⟩)
    (by rw [List.length_replicate]; decide)

end MeetingMinutes
